import Mathlib

/-!
Verification development for the dKin-Canvas-Lab real-time room relay
(server.js): a shallow embedding of the Yjs WebSocket relay — room
registry, connection lifecycle, sync endpoint, presence broadcaster,
upgrade-path routing and the room directory query — together with
theorems settling the specification claims about it.

Modelling conventions:
  * A WebSocket connection handle is a value of type `Conn`, carrying an
    identity (`id`) and the transport ready state observed at send time.
    Reference (in)equality of handles is value (in)equality.
  * A room is `{ doc, awareness, conns }` exactly as built by `getRoom`.
    The awareness (presence) set is an association list from client
    identifier to peer state, mirroring the Map inside
    awarenessProtocol.Awareness; the connection set is a list (JS Set
    iteration order = insertion order).
  * The external CRDT engine is opaque: `Doc` is a type parameter and the
    sync-protocol operations (`writeSyncStep1`, `readSyncMessage`) and
    the awareness apply operation are function parameters, since the
    relay treats their payloads as opaque blobs.
  * An encoded outbound frame is `EncodedMsg`: the leading varuint
    message-kind tag becomes the constructor (sync = tag 0, awareness =
    tag 1) and the awareness payload is modelled by the list of
    (client id, state) pairs that encodeAwarenessUpdate covers.
-/

namespace DkinCanvas

/-- Transport ready states of a ws WebSocket (CONNECTING/OPEN/CLOSING/CLOSED). -/
inductive ReadyState where
  | CONNECTING
  | OPEN
  | CLOSING
  | CLOSED
deriving DecidableEq, Repr

/-- A connection handle: identity plus the transport ready state. -/
structure Conn where
  id : Nat
  readyState : ReadyState
deriving DecidableEq, Repr

/-- The presence value stored under one client identifier.  JS objects may
lack the fields, hence `Option` (mirrors the optional-chaining reads
`st?.name`, `st?.color` in server.js). -/
structure PeerState where
  name : Option String
  color : Option String
  cursor : Option (Int × Int)
deriving DecidableEq, Repr

/-- One room: the shared document handle, the presence (awareness) set keyed
by client identifier, and the set of connected handles — the record
`{ doc, awareness, conns }` built in getRoom. -/
structure Room (Doc : Type) where
  doc : Doc
  awareness : List (Nat × PeerState)
  conns : List Conn
deriving DecidableEq, Repr

/-- Message-kind tag 0: document sync (MSG_SYNC in server.js). -/
def MSG_SYNC : Nat := 0

/-- Message-kind tag 1: presence/awareness (MSG_AWARENESS in server.js). -/
def MSG_AWARENESS : Nat := 1

/-- Lookup in the room registry map (rooms.get(name)). -/
def findRoom {Doc : Type} (name : String) :
    List (String × Room Doc) → Option (Room Doc)
  | [] => none
  | (n, r) :: rest => if n = name then some r else findRoom name rest

/-- The fresh room getRoom builds on a miss: fresh document handle, fresh
(empty) presence set, empty connection set. -/
def freshRoom {Doc : Type} (freshDoc : Doc) : Room Doc :=
  { doc := freshDoc, awareness := [], conns := [] }

/-- getRoom(name): return the stored room if present, else construct a fresh
one, store it and return it.  `freshDoc` stands for `new Y.Doc()` (the
external engine constructs the fresh document handle). -/
def getRoom {Doc : Type} (freshDoc : Doc) (rooms : List (String × Room Doc))
    (name : String) : Room Doc × List (String × Room Doc) :=
  match findRoom name rooms with
  | some r => (r, rooms)
  | none => (freshRoom freshDoc, rooms ++ [(name, freshRoom freshDoc)])

/-- The close handler of onWSConnection: `conns.delete(ws)` and nothing
else. -/
def onClose {Doc : Type} (room : Room Doc) (ws : Conn) : Room Doc :=
  { room with conns := room.conns.erase ws }

/-- An encoded outbound frame.  The constructor is the leading varuint
message-kind tag (sync = 0, awareness = 1); an awareness frame carries the
(client id, state) pairs the encoded update covers. -/
inductive EncodedMsg where
  | sync (payload : List Nat)
  | awareness (entries : List (Nat × Option PeerState))
deriving DecidableEq, Repr

/-- The leading message-kind tag written by writeVarUint before the
payload. -/
def EncodedMsg.tag : EncodedMsg → Nat
  | .sync _ => MSG_SYNC
  | .awareness _ => MSG_AWARENESS

/-- The client identifiers an awareness frame covers (a sync frame covers
none). -/
def EncodedMsg.covered : EncodedMsg → List Nat
  | .sync _ => []
  | .awareness entries => entries.map Prod.fst

/-- Current state stored under a client identifier (awareness.getStates()
lookup). -/
def findState : Nat → List (Nat × PeerState) → Option PeerState
  | _, [] => none
  | cid, (c, st) :: rest => if c = cid then some st else findState cid rest

/-- awarenessProtocol.encodeAwarenessUpdate(awareness, ids): the encoded
update covers exactly `ids`, pairing each with its current state. -/
def encodeAwarenessUpdate (aw : List (Nat × PeerState)) (ids : List Nat) :
    EncodedMsg :=
  EncodedMsg.awareness (ids.map fun i => (i, findState i aw))

/-- The {added, updated, removed} triple the awareness capability reports
to its update listeners. -/
structure AwarenessDelta where
  added : List Nat
  updated : List Nat
  removed : List Nat
deriving DecidableEq, Repr

/-- changed = added.concat(updated, removed) in the update listener. -/
def AwarenessDelta.changed (d : AwarenessDelta) : List Nat :=
  d.added ++ d.updated ++ d.removed

/-- The awareness "update" listener installed in getRoom: encode the delta
over the changed client ids and send the buffer to every connection in the
room's connection set whose handle differs from the update's origin and
whose socket is OPEN. -/
def onAwarenessUpdate (aw : List (Nat × PeerState)) (conns : List Conn)
    (d : AwarenessDelta) (origin : Conn) : List (Conn × EncodedMsg) :=
  let buf := encodeAwarenessUpdate aw d.changed
  (conns.filter fun c => c != origin && c.readyState == ReadyState.OPEN).map
    fun c => (c, buf)

/-- sendSync(ws, doc): one sync-kind frame carrying writeSyncStep1 of the
document (the reconciliation request).  `writeSyncStep1` is the external
sync capability. -/
def sendSync {Doc : Type} (writeSyncStep1 : Doc → List Nat) (doc : Doc) :
    EncodedMsg :=
  EncodedMsg.sync (writeSyncStep1 doc)

/-- sendFullAwareness(ws, awareness): one awareness-kind frame encoding the
state of every client identifier currently known
(Array.from(awareness.getStates().keys())). -/
def sendFullAwareness (aw : List (Nat × PeerState)) : EncodedMsg :=
  encodeAwarenessUpdate aw (aw.map Prod.fst)

/-- Set.add semantics of `conns.add(ws)`: append if not already a member. -/
def addConn (conns : List Conn) (ws : Conn) : List Conn :=
  if ws ∈ conns then conns else conns ++ [ws]

/-- The bind path of onWSConnection before any message arrives: add the
handle to the room's connection set, then send — in order — the sync
reconciliation request and the full awareness snapshot to the new
connection. -/
def onConnect {Doc : Type} (writeSyncStep1 : Doc → List Nat)
    (room : Room Doc) (ws : Conn) : Room Doc × List (Conn × EncodedMsg) :=
  ({ room with conns := addConn room.conns ws },
    [(ws, sendSync writeSyncStep1 room.doc),
     (ws, sendFullAwareness room.awareness)])

/-- One inbound frame after the decoder reads the leading varuint: the
message-kind tag plus the remaining payload bytes. -/
structure InMsg where
  tag : Nat
  payload : List Nat
deriving DecidableEq, Repr

/-- Effect of one message-handler invocation: the updated room, the frames
sent (in order), and the connections the handler closed. -/
structure StepResult (Doc : Type) where
  room : Room Doc
  sends : List (Conn × EncodedMsg)
  closed : List Conn
deriving DecidableEq, Repr

/-- The per-message handler of onWSConnection.  `readSyncMessage` is the
external sync capability: it pairs the updated document with whatever the
reply encoder holds after the MSG_SYNC tag (the code sends the reply iff
the encoder length exceeds 1, i.e. iff that remainder is nonempty).
`applyAwarenessUpdate` is the external awareness capability: it pairs the
updated presence set with the {added, updated, removed} delta it reports to
update listeners; the code records the receiving socket as the update's
origin, so the listener fires with origin = ws against the room's current
connection set.  A tag that is neither MSG_SYNC nor MSG_AWARENESS falls
through both branches.  No branch closes the socket. -/
def onMessage {Doc : Type}
    (readSyncMessage : List Nat → Doc → Doc × List Nat)
    (applyAwarenessUpdate :
      List (Nat × PeerState) → List Nat →
        List (Nat × PeerState) × AwarenessDelta)
    (room : Room Doc) (ws : Conn) (m : InMsg) : StepResult Doc :=
  if m.tag = MSG_SYNC then
    let res := readSyncMessage m.payload room.doc
    { room := { room with doc := res.1 },
      sends := if res.2 ≠ [] then [(ws, EncodedMsg.sync res.2)] else [],
      closed := [] }
  else if m.tag = MSG_AWARENESS then
    let res := applyAwarenessUpdate room.awareness m.payload
    { room := { room with awareness := res.1 },
      sends := onAwarenessUpdate res.1 room.conns res.2 ws,
      closed := [] }
  else
    { room := room, sends := [], closed := [] }

/-- JS String.prototype.startsWith. -/
def jsStartsWith (s pre : String) : Bool :=
  pre.data.isPrefixOf s.data

/-- The regex replace in the upgrade handler: strip a leading "/yjs" and at
most one following slash; a non-matching string is left unchanged. -/
def stripYjs (p : String) : String :=
  if jsStartsWith p "/yjs" then
    match p.data.drop 4 with
    | '/' :: rest => String.mk rest
    | rest => String.mk rest
  else p

/-- server.on("upgrade"): refuse (destroy the socket, no connection) unless
the path starts with "/yjs"; otherwise the room name is the path remainder,
falling back to the room query parameter (JS || treats the empty string as
absent) and finally to "default".  `none` is a refused upgrade; `some name`
is an accepted upgrade bound to that room. -/
def parseUpgrade (pathname : String) (queryRoom : Option String) :
    Option String :=
  if jsStartsWith pathname "/yjs" then
    let room := stripYjs pathname
    if room = "" then
      some (match queryRoom with
        | some q => if q = "" then "default" else q
        | none => "default")
    else some room
  else none

/-- JS String.prototype.toLowerCase (simple character mapping). -/
def jsToLower (s : String) : String :=
  String.mk (s.data.map Char.toLower)

/-- JS String.prototype.trim: strip whitespace from both ends. -/
def jsTrim (s : String) : String :=
  String.mk (((s.data.dropWhile Char.isWhitespace).reverse.dropWhile
    Char.isWhitespace).reverse)

/-- JS (x || dflt) on an optional string field: undefined and the empty
string are both falsy. -/
def jsOrElse (x : Option String) (dflt : String) : String :=
  match x with
  | none => dflt
  | some s => if s = "" then dflt else s

/-- One row of the peers array in the /api/rooms response. -/
structure PeerOut where
  id : Nat
  name : String
  color : String
deriving DecidableEq, Repr

/-- The placeholder test in /api/rooms: an entry is dropped when its trimmed
display name is empty or lowercases to "user" or "guest". -/
def isPlaceholder (st : PeerState) : Bool :=
  let n := jsTrim (jsOrElse st.name "")
  n == "" || jsToLower n == "user" || jsToLower n == "guest"

/-- The row pushed for a kept entry: the trimmed name, the color defaulted
to "#999". -/
def projectPeer (cid : Nat) (st : PeerState) : PeerOut :=
  { id := cid,
    name := jsTrim (jsOrElse st.name ""),
    color := jsOrElse st.color "#999" }

/-- The peers array built for one room by GET /api/rooms. -/
def roomPeers (aw : List (Nat × PeerState)) : List PeerOut :=
  aw.filterMap fun e =>
    if isPlaceholder e.2 then none else some (projectPeer e.1 e.2)

/-- GET /api/rooms: for every room in the registry, its name plus the
filtered peers projected from its presence set. -/
def listRooms {Doc : Type} (rooms : List (String × Room Doc)) :
    List (String × List PeerOut) :=
  rooms.map fun e => (e.1, roomPeers e.2.awareness)

/-- Key of a freshly stored room: after a miss, the appended entry is found. -/
theorem findRoom_append_self {Doc : Type} (name : String) (x : Room Doc) :
    ∀ rooms : List (String × Room Doc), findRoom name rooms = none →
      findRoom name (rooms ++ [(name, x)]) = some x := by
  intro rooms
  induction rooms with
  | nil => intro _; simp [findRoom]
  | cons hd tl ih =>
      intro h
      simp only [findRoom, List.cons_append] at h ⊢
      by_cases hn : hd.1 = name
      · simp [hn] at h
      · simp only [hn, if_false] at h ⊢
        exact ih h

/-- C3: getOrCreateRoom returns the stored room unchanged on a hit; on a
miss it builds, stores and returns a room with a fresh document, empty
presence set and empty connection set; and a second call with the same
name returns the very same instance without modifying the registry. -/
theorem getOrCreateRoom_spec {Doc : Type} (freshDoc : Doc)
    (rooms : List (String × Room Doc)) (name : String) :
    (∀ r, findRoom name rooms = some r → getRoom freshDoc rooms name = (r, rooms)) ∧
    (findRoom name rooms = none →
      getRoom freshDoc rooms name =
        ({ doc := freshDoc, awareness := [], conns := [] },
          rooms ++ [(name, freshRoom freshDoc)]) ∧
      findRoom name (getRoom freshDoc rooms name).2 = some (freshRoom freshDoc)) ∧
    (getRoom freshDoc (getRoom freshDoc rooms name).2 name =
      ((getRoom freshDoc rooms name).1, (getRoom freshDoc rooms name).2)) := by
  refine ⟨?_, ?_, ?_⟩
  · intro r h
    simp [getRoom, h]
  · intro h
    constructor
    · simp [getRoom, h, freshRoom]
    · simp only [getRoom, h]
      exact findRoom_append_self name (freshRoom freshDoc) rooms h
  · cases hfind : findRoom name rooms with
    | some r => simp [getRoom, hfind]
    | none =>
        have hstored :=
          findRoom_append_self name (freshRoom freshDoc : Room Doc) rooms hfind
        simp [getRoom, hfind, hstored]

/-- Witness for C3 at a concrete registry: a hit returns the stored room
unchanged, and the second call after a miss returns the same instance. -/
theorem getOrCreateRoom_spec_witness :
    (getRoom (0 : Nat) [("studio", { doc := 7, awareness := [], conns := [] })] "studio" =
      ({ doc := 7, awareness := [], conns := [] },
        [("studio", { doc := 7, awareness := [], conns := [] })])) ∧
    (getRoom (0 : Nat) [] "lab" =
      ({ doc := 0, awareness := [], conns := [] }, [("lab", freshRoom 0)])) := by
  constructor
  · exact (getOrCreateRoom_spec (0 : Nat)
      [("studio", { doc := 7, awareness := [], conns := [] })] "studio").1
      { doc := 7, awareness := [], conns := [] } (by simp [findRoom])
  · exact ((getOrCreateRoom_spec (0 : Nat) [] "lab").2.1 (by simp [findRoom])).1

/-- The encoded awareness update covers exactly the client ids it was asked
to encode. -/
theorem encode_covered (aw : List (Nat × PeerState)) (ids : List Nat) :
    (encodeAwarenessUpdate aw ids).covered = ids := by
  induction ids with
  | nil => rfl
  | cons h t ih => simpa [encodeAwarenessUpdate, EncodedMsg.covered] using ih

/-- C1: a presence delta received from connection C is applied with origin
C, so the change-notification broadcast never targets C; its frame covers
exactly added ++ updated ++ removed, and when every connection in the
room's set is OPEN the recipients are precisely the connection set minus
the origin. -/
theorem awareness_broadcast_origin_exclusion
    (aw : List (Nat × PeerState)) (conns : List Conn)
    (d : AwarenessDelta) (origin : Conn) :
    (∀ p ∈ onAwarenessUpdate aw conns d origin,
        p.1 ≠ origin ∧ p.2.covered = d.added ++ d.updated ++ d.removed) ∧
    ((∀ c ∈ conns, c.readyState = ReadyState.OPEN) →
      (onAwarenessUpdate aw conns d origin).map Prod.fst =
        conns.filter fun c => c != origin) ∧
    (∀ (Doc : Type) (rs : List Nat → Doc → Doc × List Nat)
        (aa : List (Nat × PeerState) → List Nat →
          List (Nat × PeerState) × AwarenessDelta)
        (room : Room Doc) (pl : List Nat),
      (onMessage rs aa room origin ⟨MSG_AWARENESS, pl⟩).sends =
        onAwarenessUpdate (aa room.awareness pl).1 room.conns
          (aa room.awareness pl).2 origin) := by
  refine ⟨?_, ?_, fun Doc rs aa room pl => rfl⟩
  · intro p hp
    simp only [onAwarenessUpdate, List.mem_map, List.mem_filter] at hp
    obtain ⟨c, ⟨hcmem, hcb⟩, rfl⟩ := hp
    simp only [Bool.and_eq_true, bne_iff_ne, beq_iff_eq] at hcb
    exact ⟨hcb.1, by simp [encode_covered, AwarenessDelta.changed]⟩
  · intro hopen
    have hmap : (onAwarenessUpdate aw conns d origin).map Prod.fst =
        conns.filter fun c => c != origin && c.readyState == ReadyState.OPEN := by
      simp [onAwarenessUpdate, List.map_map, Function.comp_def]
    rw [hmap]
    apply List.filter_congr
    intro c hc
    simp [hopen c hc]

/-- Witness for C1: with three OPEN connections and origin the third, the
recipients are exactly the set minus the origin. -/
theorem awareness_broadcast_origin_exclusion_witness :
    (onAwarenessUpdate []
        [⟨1, ReadyState.OPEN⟩, ⟨2, ReadyState.OPEN⟩, ⟨3, ReadyState.OPEN⟩]
        ⟨[5], [], []⟩ ⟨3, ReadyState.OPEN⟩).map Prod.fst =
      List.filter (fun c => c != (⟨3, ReadyState.OPEN⟩ : Conn))
        [⟨1, ReadyState.OPEN⟩, ⟨2, ReadyState.OPEN⟩, ⟨3, ReadyState.OPEN⟩] :=
  (awareness_broadcast_origin_exclusion []
    [⟨1, ReadyState.OPEN⟩, ⟨2, ReadyState.OPEN⟩, ⟨3, ReadyState.OPEN⟩]
    ⟨[5], [], []⟩ ⟨3, ReadyState.OPEN⟩).2.1 (by decide)

/-- C10: a connection whose socket is not OPEN is skipped by the presence
fan-out, and its presence in the connection set leaves the frames delivered
to the others exactly as if it were absent. -/
theorem broadcast_skips_non_open
    (aw : List (Nat × PeerState)) (conns : List Conn)
    (d : AwarenessDelta) (origin s : Conn)
    (hs : s.readyState ≠ ReadyState.OPEN) :
    (∀ p ∈ onAwarenessUpdate aw conns d origin, p.1 ≠ s) ∧
    onAwarenessUpdate aw conns d origin =
      onAwarenessUpdate aw (conns.filter fun c => c != s) d origin := by
  constructor
  · intro p hp
    simp only [onAwarenessUpdate, List.mem_map, List.mem_filter] at hp
    obtain ⟨c, ⟨hcmem, hcb⟩, rfl⟩ := hp
    simp only [Bool.and_eq_true, bne_iff_ne, beq_iff_eq] at hcb
    exact fun he => hs (he ▸ hcb.2)
  · simp only [onAwarenessUpdate]
    congr 1
    rw [List.filter_filter]
    apply List.filter_congr
    intro c _
    cases hx : (c != origin && c.readyState == ReadyState.OPEN) with
    | false => simp [hx]
    | true =>
        have hcb := hx
        simp only [Bool.and_eq_true, bne_iff_ne, beq_iff_eq] at hcb
        have hcs : (c != s) = true := by
          simp only [bne_iff_ne]
          exact fun he => hs (he ▸ hcb.2)
        simp [hcs]

/-- Witness for C10: a CLOSING connection left in the set changes nothing
about what the broadcast delivers. -/
theorem broadcast_skips_non_open_witness :
    onAwarenessUpdate [] [⟨1, ReadyState.OPEN⟩, ⟨9, ReadyState.CLOSING⟩]
        ⟨[4], [], []⟩ ⟨1, ReadyState.OPEN⟩ =
      onAwarenessUpdate []
        (List.filter (fun c => c != (⟨9, ReadyState.CLOSING⟩ : Conn))
          [⟨1, ReadyState.OPEN⟩, ⟨9, ReadyState.CLOSING⟩])
        ⟨[4], [], []⟩ ⟨1, ReadyState.OPEN⟩ :=
  (broadcast_skips_non_open [] [⟨1, ReadyState.OPEN⟩, ⟨9, ReadyState.CLOSING⟩]
    ⟨[4], [], []⟩ ⟨1, ReadyState.OPEN⟩ ⟨9, ReadyState.CLOSING⟩ (by decide)).2

/-- C4: the bind path adds the handle to the room's connection set, leaves
the document and presence set untouched, and sends to the new connection —
in order — the sync reconciliation request then one awareness-kind snapshot
covering every client id currently in the presence set (present even when
the set is empty). -/
theorem connect_sends_sync_then_snapshot {Doc : Type}
    (writeSyncStep1 : Doc → List Nat) (room : Room Doc) (ws : Conn) :
    ws ∈ (onConnect writeSyncStep1 room ws).1.conns ∧
    (onConnect writeSyncStep1 room ws).1.doc = room.doc ∧
    (onConnect writeSyncStep1 room ws).1.awareness = room.awareness ∧
    (onConnect writeSyncStep1 room ws).2 =
      [(ws, EncodedMsg.sync (writeSyncStep1 room.doc)),
       (ws, sendFullAwareness room.awareness)] ∧
    (sendFullAwareness room.awareness).tag = MSG_AWARENESS ∧
    (sendFullAwareness room.awareness).covered = room.awareness.map Prod.fst := by
  refine ⟨?_, rfl, rfl, rfl, rfl, encode_covered _ _⟩
  simp only [onConnect, addConn]
  by_cases h : ws ∈ room.conns
  · simp [h]
  · simp [h]

/-- C9: the close handler removes the closed handle from the connection set
and touches nothing else — the document handle and the presence set are
unchanged, and no awareness-removal is performed on the close path. -/
theorem close_handler_frame {Doc : Type} (room : Room Doc) (ws : Conn) :
    (onClose room ws).doc = room.doc ∧
    (onClose room ws).awareness = room.awareness ∧
    (onClose room ws).conns = room.conns.erase ws := by
  refine ⟨rfl, rfl, rfl⟩

/-- C2 (failing input): a room holds Bob's presence entry under client id 2,
owned by the connection with handle id 2; when that transport closes, the
close handler leaves the presence entry in the room (no removal, hence no
removal broadcast fires), and the full snapshot sent to a later joiner
still covers the disconnected client id 2 — contradicting the claimed
disconnect cleanup. -/
theorem close_leaves_presence_entry :
    (onClose
        { doc := (0 : Nat),
          awareness :=
            [(2, { name := some "Bob", color := some "#00f", cursor := none })],
          conns := [⟨1, ReadyState.OPEN⟩, ⟨2, ReadyState.OPEN⟩] }
        ⟨2, ReadyState.OPEN⟩).awareness =
      [(2, { name := some "Bob", color := some "#00f", cursor := none })] ∧
    (onClose
        { doc := (0 : Nat),
          awareness :=
            [(2, { name := some "Bob", color := some "#00f", cursor := none })],
          conns := [⟨1, ReadyState.OPEN⟩, ⟨2, ReadyState.OPEN⟩] }
        ⟨2, ReadyState.OPEN⟩).conns = [⟨1, ReadyState.OPEN⟩] ∧
    (sendFullAwareness
        (onClose
          { doc := (0 : Nat),
            awareness :=
              [(2, { name := some "Bob", color := some "#00f", cursor := none })],
            conns := [⟨1, ReadyState.OPEN⟩, ⟨2, ReadyState.OPEN⟩] }
          ⟨2, ReadyState.OPEN⟩).awareness).covered = [2] := by
  refine ⟨rfl, by decide, rfl⟩

/-- C5: a sync-kind message from connection C updates only the document; any
reply goes to C alone — it is sent exactly when the reply encoder holds
more than the tag, and never to any other connection. -/
theorem sync_reply_point_to_point {Doc : Type}
    (readSyncMessage : List Nat → Doc → Doc × List Nat)
    (applyAwarenessUpdate :
      List (Nat × PeerState) → List Nat →
        List (Nat × PeerState) × AwarenessDelta)
    (room : Room Doc) (ws : Conn) (payload : List Nat) :
    (onMessage readSyncMessage applyAwarenessUpdate room ws
        ⟨MSG_SYNC, payload⟩).room.doc = (readSyncMessage payload room.doc).1 ∧
    (onMessage readSyncMessage applyAwarenessUpdate room ws
        ⟨MSG_SYNC, payload⟩).room.awareness = room.awareness ∧
    (onMessage readSyncMessage applyAwarenessUpdate room ws
        ⟨MSG_SYNC, payload⟩).room.conns = room.conns ∧
    (∀ p ∈ (onMessage readSyncMessage applyAwarenessUpdate room ws
        ⟨MSG_SYNC, payload⟩).sends, p.1 = ws) ∧
    ((readSyncMessage payload room.doc).2 ≠ [] →
      (onMessage readSyncMessage applyAwarenessUpdate room ws
          ⟨MSG_SYNC, payload⟩).sends =
        [(ws, EncodedMsg.sync (readSyncMessage payload room.doc).2)]) ∧
    ((readSyncMessage payload room.doc).2 = [] →
      (onMessage readSyncMessage applyAwarenessUpdate room ws
          ⟨MSG_SYNC, payload⟩).sends = []) := by
  by_cases h : (readSyncMessage payload room.doc).2 = [] <;>
    refine ⟨rfl, rfl, rfl, ?_, ?_, ?_⟩ <;> simp [onMessage, h]

/-- Witness for C5: a reply payload is returned to the sender alone. -/
theorem sync_reply_point_to_point_witness :
    (onMessage (fun pl d => (d + pl.length, [42]))
        (fun aw _ => (aw, ⟨[], [], []⟩))
        { doc := (0 : Nat), awareness := [], conns := [] }
        ⟨7, ReadyState.OPEN⟩ ⟨MSG_SYNC, [9, 9]⟩).sends =
      [(⟨7, ReadyState.OPEN⟩, EncodedMsg.sync [42])] :=
  (sync_reply_point_to_point (fun pl d => (d + pl.length, [42]))
    (fun aw _ => (aw, ⟨[], [], []⟩))
    { doc := (0 : Nat), awareness := [], conns := [] }
    ⟨7, ReadyState.OPEN⟩ [9, 9]).2.2.2.2.1 (by decide)

/-- C8: a message whose tag is neither the sync kind nor the awareness kind
changes no room state, sends nothing and closes nothing. -/
theorem unknown_tag_noop {Doc : Type}
    (readSyncMessage : List Nat → Doc → Doc × List Nat)
    (applyAwarenessUpdate :
      List (Nat × PeerState) → List Nat →
        List (Nat × PeerState) × AwarenessDelta)
    (room : Room Doc) (ws : Conn) (m : InMsg)
    (h0 : m.tag ≠ MSG_SYNC) (h1 : m.tag ≠ MSG_AWARENESS) :
    onMessage readSyncMessage applyAwarenessUpdate room ws m =
      { room := room, sends := [], closed := [] } := by
  simp [onMessage, h0, h1]

/-- Witness for C8: a message with tag 5 is a complete no-op. -/
theorem unknown_tag_noop_witness :
    onMessage (fun pl d => (d + pl.length, pl))
        (fun aw _ => (aw, ⟨[], [], []⟩))
        { doc := (0 : Nat), awareness := [], conns := [⟨1, ReadyState.OPEN⟩] }
        ⟨1, ReadyState.OPEN⟩ ⟨5, [9]⟩ =
      { room := { doc := 0, awareness := [], conns := [⟨1, ReadyState.OPEN⟩] },
        sends := [], closed := [] } :=
  unknown_tag_noop (fun pl d => (d + pl.length, pl))
    (fun aw _ => (aw, ⟨[], [], []⟩))
    { doc := (0 : Nat), awareness := [], conns := [⟨1, ReadyState.OPEN⟩] }
    ⟨1, ReadyState.OPEN⟩ ⟨5, [9]⟩ (by decide) (by decide)

/-- C6: an upgrade whose path lacks the /yjs prefix is refused with no
connection; otherwise the room name is the path remainder when nonempty,
and falls back to "default" when the path carries no room segment and the
query parameter is absent. -/
theorem upgrade_room_resolution (pathname : String) (q : Option String) :
    (jsStartsWith pathname "/yjs" = false → parseUpgrade pathname q = none) ∧
    (jsStartsWith pathname "/yjs" = true → stripYjs pathname ≠ "" →
      parseUpgrade pathname q = some (stripYjs pathname)) ∧
    (jsStartsWith pathname "/yjs" = true → stripYjs pathname = "" →
      ∀ s, q = some s → s ≠ "" → parseUpgrade pathname q = some s) ∧
    (jsStartsWith pathname "/yjs" = true → stripYjs pathname = "" →
      q = none → parseUpgrade pathname q = some "default") := by
  refine ⟨fun h => ?_, fun h hr => ?_, fun h hr s hq hs => ?_, fun h hr hq => ?_⟩
  · simp [parseUpgrade, h]
  · simp [parseUpgrade, h, hr]
  · simp [parseUpgrade, h, hr, hq, hs]
  · simp [parseUpgrade, h, hr, hq]

/-- Witness for C6: a foreign path is refused, /yjs/studio-123 resolves to
studio-123, and bare /yjs with no query falls back to "default". -/
theorem upgrade_room_resolution_witness :
    parseUpgrade "/api/rooms" none = none ∧
    parseUpgrade "/yjs/studio-123" none = some "studio-123" ∧
    parseUpgrade "/yjs" (some "lab") = some "lab" ∧
    parseUpgrade "/yjs" none = some "default" := by
  refine ⟨(upgrade_room_resolution "/api/rooms" none).1 (by decide), ?_,
    (upgrade_room_resolution "/yjs" (some "lab")).2.2.1 (by decide) (by decide)
      "lab" rfl (by decide),
    (upgrade_room_resolution "/yjs" none).2.2.2 (by decide) (by decide) rfl⟩
  have h := (upgrade_room_resolution "/yjs/studio-123" none).2.1
    (by decide) (by decide)
  rw [h]
  decide

/-- C7: the directory lists every room with its projected peers; placeholder
entries (trimmed name empty or case-insensitively user/guest) never
contribute a row no matter how many there are, every non-placeholder entry
contributes its {id, name, color} row, and every row comes from a
non-placeholder entry. -/
theorem listRooms_filters_placeholders {Doc : Type}
    (rooms : List (String × Room Doc)) (aw : List (Nat × PeerState)) :
    (∀ e ∈ rooms, (e.1, roomPeers e.2.awareness) ∈ listRooms rooms) ∧
    (roomPeers aw = roomPeers (aw.filter fun e => !(isPlaceholder e.2))) ∧
    (∀ e ∈ aw, isPlaceholder e.2 = false →
      projectPeer e.1 e.2 ∈ roomPeers aw) ∧
    (∀ p ∈ roomPeers aw, ∃ e ∈ aw,
      isPlaceholder e.2 = false ∧ p = projectPeer e.1 e.2) := by
  refine ⟨?_, ?_, ?_, ?_⟩
  · intro e he
    exact List.mem_map.mpr ⟨e, he, rfl⟩
  · induction aw with
    | nil => rfl
    | cons e t ih =>
        by_cases h : isPlaceholder e.2 = true
        · simpa [roomPeers, List.filterMap_cons, List.filter_cons, h] using ih
        · simp only [Bool.not_eq_true] at h
          simpa [roomPeers, List.filterMap_cons, List.filter_cons, h] using ih
  · intro e he hkeep
    refine List.mem_filterMap.mpr ⟨e, he, ?_⟩
    simp [hkeep]
  · intro p hp
    obtain ⟨e, he, hf⟩ := List.mem_filterMap.mp hp
    by_cases h : isPlaceholder e.2 = true
    · simp [h] at hf
    · simp only [Bool.not_eq_true] at h
      simp only [h, if_neg Bool.false_ne_true, Option.some.injEq] at hf
      exact ⟨e, he, h, hf.symm⟩

/-- Witness for C7: with one placeholder entry and one named entry, the
named entry's projected row is in the peers array. -/
theorem listRooms_filters_placeholders_witness :
    projectPeer 2 { name := some "Alice", color := none, cursor := none } ∈
      roomPeers [(1, { name := some "user", color := none, cursor := none }),
        (2, { name := some "Alice", color := none, cursor := none })] :=
  (listRooms_filters_placeholders ([] : List (String × Room Nat))
    [(1, { name := some "user", color := none, cursor := none }),
      (2, { name := some "Alice", color := none, cursor := none })]).2.2.1
    (2, { name := some "Alice", color := none, cursor := none })
    (by decide) (by decide)

end DkinCanvas
